import Mathlib

/- Verification development for the Khidmat-PAWS-Shelter audio record pipeline.

   Shallow embedding of the two deployment variants:
   - src/frontend.py  (interactive uploader: temp file, retry loop, record
     assembly with defaulting and integer coercion, database insert, export)
   - src/version1.py  (batch runner: retry loop, raw record plus date, export)

   Remote calls (upload, poll, generate) and JSON parsing are modelled as
   per-attempt oracles; the response cleanup, retry control, record assembly,
   run loops and export shaping are embedded from the source. -/

namespace PawsShelter

/-- ASCII whitespace stripped by Python str.strip with no arguments. -/
def isPySpace (c : Char) : Bool :=
  c = ' ' || c = '\t' || c = '\n' || c = '\r' || c = '\x0b' || c = '\x0c'

/-- Python str.lstrip on character lists. -/
def lstripL (l : List Char) : List Char := l.dropWhile isPySpace

/-- Python str.rstrip on character lists. -/
def rstripL (l : List Char) : List Char := (lstripL l.reverse).reverse

/-- Python str.strip on character lists. -/
def stripL (l : List Char) : List Char := rstripL (lstripL l)

/-- Fuelled worker for Python str.replace: scans left to right, replacing
    non-overlapping occurrences of the (nonempty) pattern. -/
def replFuel (pat rep : List Char) : Nat → List Char → List Char
  | _, [] => []
  | 0, l => l
  | f + 1, c :: cs =>
    if List.isPrefixOf pat (c :: cs) then
      rep ++ replFuel pat rep f (List.drop (pat.length - 1) cs)
    else
      c :: replFuel pat rep f cs

/-- Python str.replace(pat, rep) for a nonempty pattern. -/
def replaceL (pat rep l : List Char) : List Char := replFuel pat rep l.length l

/-- The backtick character (obtained from a string literal). -/
def btick : Char := ("`".toList).headD ' '

/-- The pattern removed by the first replace of the cleanup step. -/
def patJson : List Char := [btick, btick, btick, 'j', 's', 'o', 'n']

/-- The pattern removed by the second replace of the cleanup step. -/
def patFence : List Char := [btick, btick, btick]

/-- The response cleanup from both sources (frontend.py line 97,
    version1.py line 85): strip, remove every occurrence of the two fence
    markers, strip again. -/
def cleanResponse (l : List Char) : List Char :=
  stripL (replaceL patFence [] (replaceL patJson [] (stripL l)))

/-- A JSON value as it appears in the parsed extraction result: the prompt
    asks for string values, with patient_id possibly numeric. -/
inductive JVal where
  | jstr : String → JVal
  | jnum : Int → JVal
deriving DecidableEq

/-- A parsed JSON object (a Python dict with unique keys, in insertion
    order), as returned by json.loads on the cleaned response. -/
abbrev JObj := List (String × JVal)

/-- Python dict lookup d.get(k) / d[k] presence. -/
def lookupJ (j : JObj) (k : String) : Option JVal :=
  (j.find? (fun kv => kv.fst == k)).map (fun kv => kv.snd)

/-- Python dict assignment d[k] = v: replace in place, or append a new key. -/
def setKey : JObj → String → JVal → JObj
  | [], k, v => [(k, v)]
  | kv :: t, k, v => if kv.fst == k then (k, v) :: t else kv :: setKey t k v

/-- Digit-string value for Python int(str) (all characters must be digits). -/
def pyDigitsCore : List Char → Nat → Option Nat
  | [], acc => some acc
  | c :: cs, acc =>
    if c.isDigit then pyDigitsCore cs (acc * 10 + (c.toNat - '0'.toNat))
    else none

/-- Python int(s) on a string: strip whitespace, optional sign, digits;
    returns none where CPython raises ValueError. -/
def pyStrToInt (s : String) : Option Int :=
  match stripL s.toList with
  | '+' :: ds => if ds.isEmpty then none else (pyDigitsCore ds 0).map (fun n => (n : Int))
  | '-' :: ds => if ds.isEmpty then none else (pyDigitsCore ds 0).map (fun n => -(n : Int))
  | ds => if ds.isEmpty then none else (pyDigitsCore ds 0).map (fun n => (n : Int))

/-- Python int(x) on a parsed JSON value. -/
def pyInt : JVal → Option Int
  | .jnum n => some n
  | .jstr s => pyStrToInt s

/-- Outcome of the temp-file write at the start of a frontend attempt
    (open(uploaded_file.name, "wb"); f.write(...)): success, failure after
    the file was created, or failure with no file created. -/
inductive WriteOutcome where
  | ok
  | failCreated
  | failNotCreated
deriving DecidableEq

/-- Oracle for one extraction attempt of the batch variant: does the upload
    call succeed, does polling end in READY (vs FAILED), does generate_content
    succeed, and what does json.loads yield on the cleaned response. -/
structure VEnv where
  uploadOk : Bool
  remoteReady : Bool
  generateOk : Bool
  parsed : Option JObj
deriving DecidableEq

/-- Oracle for one extraction attempt of the interactive variant: the
    temp-file write outcome, then the same remote steps as the batch one. -/
structure FEnv where
  write : WriteOutcome
  api : VEnv
deriving DecidableEq

/-- Result of one attempt body of version1.process_audio_file: some parsed
    object on success, none when any step raised. -/
def vAttemptResult (e : VEnv) : Option JObj :=
  if e.uploadOk && e.remoteReady && e.generateOk then e.parsed else none

/-- Result of one attempt body of frontend.process_audio_file. -/
def fAttemptResult (e : FEnv) : Option JObj :=
  match e.write with
  | .ok => if e.api.uploadOk && e.api.remoteReady && e.api.generateOk then e.api.parsed else none
  | _ => none

/-- Whether the temp copy exists on disk after one frontend attempt body,
    given whether it existed before: the write creates it; os.remove deletes
    it just before json.loads on the success path of the body. -/
def fAttemptTemp (e : FEnv) (temp : Bool) : Bool :=
  match e.write with
  | .failNotCreated => temp
  | .failCreated => true
  | .ok => if e.api.uploadOk && e.api.remoteReady && e.api.generateOk then false else true

/-- Retry loop of version1.process_audio_file, with r attempts remaining:
    returns the parsed result (or none after the last failure) and the
    number of attempt bodies executed. -/
def vLoop (envs : Nat → VEnv) : Nat → Nat → Option JObj × Nat
  | _, 0 => (none, 0)
  | i, r + 1 =>
    match vAttemptResult (envs i) with
    | some j => (some j, 1)
    | none =>
      if r = 0 then (none, 1)
      else ((vLoop envs (i + 1) r).fst, (vLoop envs (i + 1) r).snd + 1)

/-- version1.process_audio_file: max_retries = 3. -/
def vProcess (envs : Nat → VEnv) : Option JObj × Nat := vLoop envs 0 3

/-- Retry loop of frontend.process_audio_file, additionally threading whether
    the temp copy exists; on the final failed attempt the except branch
    removes the temp copy if it exists. Returns (result, temp exists, number
    of attempt bodies executed). -/
def fLoop (envs : Nat → FEnv) : Nat → Nat → Bool → Option JObj × Bool × Nat
  | _, 0, temp => (none, temp, 0)
  | i, r + 1, temp =>
    match fAttemptResult (envs i) with
    | some j => (some j, fAttemptTemp (envs i) temp, 1)
    | none =>
      if r = 0 then (none, false, 1)
      else ((fLoop envs (i + 1) r (fAttemptTemp (envs i) temp)).fst,
            (fLoop envs (i + 1) r (fAttemptTemp (envs i) temp)).snd.fst,
            (fLoop envs (i + 1) r (fAttemptTemp (envs i) temp)).snd.snd + 1)

/-- frontend.process_audio_file: max_retries = 3, no temp copy on entry. -/
def fProcess (envs : Nat → FEnv) : Option JObj × Bool × Nat := fLoop envs 0 3 false

/-- The record assembled by the frontend button handler (lines 154-161):
    patient_id coerced with int() after a default of 0, the other fields
    defaulted to "N/A", the current date stamped. none models the uncaught
    ValueError raised by int() on a non-numeric value. -/
structure Record where
  patient_id : Int
  patient_name : JVal
  patient_dose : JVal
  notes_for_doctor : JVal
  record_date : String
deriving DecidableEq

def assembleFrontend (j : JObj) (today : String) : Option Record :=
  match pyInt ((lookupJ j "patient_id").getD (JVal.jnum 0)) with
  | none => none
  | some n =>
      some ⟨n, (lookupJ j "patient_name").getD (JVal.jstr "N/A"),
            (lookupJ j "patient_dose").getD (JVal.jstr "N/A"),
            (lookupJ j "notes_for_doctor").getD (JVal.jstr "N/A"), today⟩

/-- The record appended by version1.main (lines 120-125): the parsed object
    unchanged, with the current date added under the key "date". -/
def batchAssemble (j : JObj) (today : String) : JObj :=
  setKey j "date" (JVal.jstr today)

/-- The frontend per-file loop, records only: a failed extraction is
    reported and skipped (a falsy empty dict as well); an uncaught assembly
    error aborts the whole run (none). -/
def runFrontendRecords (d : String) : List (Nat → FEnv) → Option (List Record)
  | [] => some []
  | f :: fs =>
    match (fProcess f).fst with
    | none => runFrontendRecords d fs
    | some j =>
      if j.isEmpty then runFrontendRecords d fs
      else
        match assembleFrontend j d with
        | none => none
        | some r => (runFrontendRecords d fs).map (fun l => r :: l)

/-- The frontend per-file loop including the Supabase insert: ins gives the
    insert outcome per file index; each assembled record produces one
    operator notice (index, insert succeeded?) and is appended to the result
    set whether or not the insert succeeded. -/
def runFrontendFull (d : String) (ins : Nat → Bool) :
    List (Nat → FEnv) → Nat → Option (List Record × List (Nat × Bool))
  | [], _ => some ([], [])
  | f :: fs, i =>
    match (fProcess f).fst with
    | none => runFrontendFull d ins fs (i + 1)
    | some j =>
      if j.isEmpty then runFrontendFull d ins fs (i + 1)
      else
        match assembleFrontend j d with
        | none => none
        | some r =>
            (runFrontendFull d ins fs (i + 1)).map
              (fun p => (r :: p.fst, (i, ins i) :: p.snd))

/-- The version1.main per-file loop: failed or falsy extractions are skipped,
    successful ones contribute the raw object plus date, in processing
    order. -/
def runBatch (d : String) : List (Nat → VEnv) → List JObj
  | [] => []
  | f :: fs =>
    match (vProcess f).fst with
    | none => runBatch d fs
    | some j =>
      if j.isEmpty then runBatch d fs
      else batchAssemble j d :: runBatch d fs

/-- Column rename of frontend.py (lines 179-185). -/
def renameF (k : String) : String :=
  if k == "patient_id" then "Patient ID"
  else if k == "patient_name" then "Patient Name"
  else if k == "patient_dose" then "Patient Dose"
  else if k == "notes_for_doctor" then "Notes for Doctor"
  else if k == "record_date" then "Date"
  else k

/-- Column rename of version1.py (lines 140-146): note the lowercase d in
    the notes label. -/
def renameB (k : String) : String :=
  if k == "patient_id" then "Patient ID"
  else if k == "patient_name" then "Patient Name"
  else if k == "patient_dose" then "Patient Dose"
  else if k == "notes_for_doctor" then "Notes for doctor"
  else if k == "date" then "Date"
  else k

/-- df.rename(columns=...): applied to every key of every row object. -/
def renameObj (f : String → String) (j : JObj) : JObj :=
  j.map (fun kv => (f kv.fst, kv.snd))

/-- The column selection list of frontend.py line 186. -/
def frontHeaders : List String :=
  ["Patient ID", "Patient Name", "Patient Dose", "Notes for Doctor", "Date"]

/-- The column selection list of version1.py line 149. -/
def batchHeaders : List String :=
  ["Patient ID", "Patient Name", "Patient Dose", "Notes for doctor", "Date"]

/-- The record keys of the batch variant, in DataFrame column order. -/
def origKeysB : List String :=
  ["patient_id", "patient_name", "patient_dose", "notes_for_doctor", "date"]

/-- One row of df[cols]: per selected column, the cell value (none models
    the NaN pandas fills in for a row missing that key). -/
def selectCols (cols : List String) (j : JObj) : List (Option JVal) :=
  cols.map (fun c => lookupJ j c)

/-- df[cols] on a DataFrame built from row objects: fails (KeyError) unless
    every selected column occurs in at least one row. -/
def selectDf (cols : List String) (rows : List JObj) :
    Option (List String × List (List (Option JVal))) :=
  if cols.all (fun c => rows.any (fun j => (lookupJ j c).isSome)) then
    some (cols, rows.map (fun j => selectCols cols j))
  else none

/-- The dict the frontend record is inserted and displayed as. -/
def frontRecordToObj (r : Record) : JObj :=
  [("patient_id", JVal.jnum r.patient_id), ("patient_name", r.patient_name),
   ("patient_dose", r.patient_dose), ("notes_for_doctor", r.notes_for_doctor),
   ("record_date", JVal.jstr r.record_date)]

/-- final_df of frontend.py (lines 176-186): nothing is rendered when no
    records exist; otherwise rename then select the five display columns. -/
def frontendFinalDf (records : List Record) :
    Option (List String × List (List (Option JVal))) :=
  if records.isEmpty then none
  else selectDf frontHeaders (records.map (fun r => renameObj renameF (frontRecordToObj r)))

/-- final_df of version1.py (lines 130-149): main returns before building
    the DataFrame when no records exist. -/
def version1FinalDf (records : List JObj) :
    Option (List String × List (List (Option JVal))) :=
  if records.isEmpty then none
  else selectDf batchHeaders (records.map (fun j => renameObj renameB j))

/-- An uploaded file: its client-side name and its bytes. -/
structure UpFile where
  name : String
  content : String
deriving DecidableEq

/-- The path the frontend writes the temp copy to (line 79:
    open(uploaded_file.name, "wb")): the bare file name in the working
    directory. -/
def tempPath (f : UpFile) : String := f.name

/-- A flat file system: later writes to a path shadow earlier ones. -/
def fsWrite (fs : List (String × String)) (p c : String) : List (String × String) :=
  (p, c) :: fs

def fsRead (fs : List (String × String)) (p : String) : Option String :=
  (fs.find? (fun q => q.fst == p)).map (fun q => q.snd)

/-- The temp-copy write of one attempt, as a file-system action. -/
def writeTempFile (fs : List (String × String)) (f : UpFile) : List (String × String) :=
  fsWrite fs (tempPath f) f.content

/-- Sample parsed response of end-to-end scenario A of the spec. -/
def respGood : JObj :=
  [("patient_id", JVal.jstr "12"), ("patient_name", JVal.jstr "Bruno"),
   ("patient_dose", JVal.jstr "Augmentin 2cc"), ("notes_for_doctor", JVal.jstr "N/A")]

/-- A parsed response whose patient_id is the sentinel "N/A". -/
def respNA : JObj :=
  [("patient_id", JVal.jstr "N/A"), ("patient_name", JVal.jstr "Milo"),
   ("patient_dose", JVal.jstr "N/A"), ("notes_for_doctor", JVal.jstr "N/A")]

/-- An attempt oracle whose first attempt succeeds with the given parse. -/
def envOfResp (j : JObj) : FEnv := ⟨WriteOutcome.ok, ⟨true, true, true, some j⟩⟩

def venvOfResp (j : JObj) : VEnv := ⟨true, true, true, some j⟩

/-- An attempt oracle whose upload always fails. -/
def failEnvF : FEnv := ⟨WriteOutcome.ok, ⟨false, true, true, none⟩⟩

def failEnvV : VEnv := ⟨false, true, true, none⟩

end PawsShelter

namespace PawsShelter

theorem replFuel_nilList (pat rep : List Char) (f : Nat) :
    replFuel pat rep f [] = [] := by
  cases f <;> rfl

theorem replFuel_stable (pat rep : List Char) :
    ∀ f g l, l.length ≤ f → l.length ≤ g →
      replFuel pat rep f l = replFuel pat rep g l := by
  intro f
  induction f using Nat.strong_induction_on with
  | _ f ih =>
    intro g l hf hg
    cases l with
    | nil => rw [replFuel_nilList, replFuel_nilList]
    | cons c cs =>
      cases f with
      | zero => simp at hf
      | succ f' =>
        cases g with
        | zero => simp at hg
        | succ g' =>
          have hf' : cs.length ≤ f' := by simpa using hf
          have hg' : cs.length ≤ g' := by simpa using hg
          simp only [replFuel]
          by_cases hp : List.isPrefixOf pat (c :: cs) = true
          · rw [if_pos hp, if_pos hp]
            have hd : (List.drop (pat.length - 1) cs).length ≤ cs.length := by
              rw [List.length_drop]; omega
            have h1 := ih f' (Nat.lt_succ_self f') g'
              (List.drop (pat.length - 1) cs) (Nat.le_trans hd hf') (Nat.le_trans hd hg')
            rw [h1]
          · rw [if_neg hp, if_neg hp]
            have h1 := ih f' (Nat.lt_succ_self f') g' cs hf' hg'
            rw [h1]

theorem replaceL_nilList (pat rep : List Char) : replaceL pat rep [] = [] := rfl

theorem replaceL_cons (pat rep : List Char) (c : Char) (cs : List Char) :
    replaceL pat rep (c :: cs) =
      if List.isPrefixOf pat (c :: cs) then
        rep ++ replaceL pat rep (List.drop (pat.length - 1) cs)
      else c :: replaceL pat rep cs := by
  show replFuel pat rep (c :: cs).length (c :: cs) = _
  simp only [List.length_cons, replFuel]
  by_cases hp : List.isPrefixOf pat (c :: cs) = true
  · rw [if_pos hp, if_pos hp]
    have hd : (List.drop (pat.length - 1) cs).length ≤ cs.length := by
      rw [List.length_drop]; omega
    rw [replFuel_stable pat rep cs.length (List.drop (pat.length - 1) cs).length
      (List.drop (pat.length - 1) cs) hd (Nat.le_refl _)]
    rfl
  · rw [if_neg hp, if_neg hp]
    rfl

theorem isPrefixOf_append_self (pat r : List Char) :
    List.isPrefixOf pat (pat ++ r) = true := by
  induction pat with
  | nil => cases r <;> rfl
  | cons a as ih => simp [List.isPrefixOf, ih]

/-- A match at the head of the scanned text is replaced. -/
theorem replaceL_match (pat rep rest : List Char) (hne : pat ≠ []) :
    replaceL pat rep (pat ++ rest) = rep ++ replaceL pat rep rest := by
  match pat, hne with
  | p :: ps, _ =>
    rw [List.cons_append, replaceL_cons]
    rw [if_pos (by rw [← List.cons_append]; exact isPrefixOf_append_self (p :: ps) rest)]
    have hdrop : List.drop ((p :: ps).length - 1) (ps ++ rest) = rest := by
      simp only [List.length_cons, Nat.add_sub_cancel]
      exact List.drop_left ps rest
    rw [hdrop]

/-- Scanning passes unchanged over a block that misses the pattern head. -/
theorem replaceL_skip (p : Char) (ps rep rest : List Char) :
    ∀ l : List Char, (∀ c ∈ l, p ≠ c) →
      replaceL (p :: ps) rep (l ++ rest) = l ++ replaceL (p :: ps) rep rest := by
  intro l
  induction l with
  | nil => intro _; rfl
  | cons c cs ih =>
    intro h
    have hpc : p ≠ c := h c (List.mem_cons_self c cs)
    rw [List.cons_append, replaceL_cons, if_neg ?hneg]
    case hneg =>
      simp only [List.isPrefixOf, Bool.and_eq_true, beq_iff_eq]
      exact fun hand => hpc hand.1
    rw [ih (fun d hd => h d (List.mem_cons_of_mem c hd))]
    rfl

theorem lstripL_space (w l : List Char) (hw : ∀ c ∈ w, isPySpace c = true) :
    lstripL (w ++ l) = lstripL l := by
  induction w with
  | nil => rfl
  | cons c cs ih =>
    rw [List.cons_append]
    show List.dropWhile isPySpace (c :: (cs ++ l)) = _
    rw [List.dropWhile_cons, if_pos (hw c (List.mem_cons_self c cs))]
    exact ih (fun d hd => hw d (List.mem_cons_of_mem c hd))

theorem lstripL_nospace (c : Char) (l : List Char) (hc : isPySpace c = false) :
    lstripL (c :: l) = c :: l := by
  show List.dropWhile isPySpace (c :: l) = _
  rw [List.dropWhile_cons, if_neg (by simp [hc])]

theorem rstripL_space (l w : List Char) (hw : ∀ c ∈ w, isPySpace c = true) :
    rstripL (l ++ w) = rstripL l := by
  unfold rstripL
  rw [List.reverse_append]
  rw [lstripL_space w.reverse l.reverse (fun c hc => hw c (List.mem_reverse.mp hc))]

theorem rstripL_nospace (l : List Char) (d : Char) (hd : isPySpace d = false) :
    rstripL (l ++ [d]) = l ++ [d] := by
  unfold rstripL
  rw [List.reverse_append]
  rw [show ([d].reverse : List Char) ++ l.reverse = d :: l.reverse by simp]
  rw [lstripL_nospace d l.reverse hd]
  rw [show d :: l.reverse = (l ++ [d]).reverse by simp]
  rw [List.reverse_reverse]

/-- str.strip on space ++ body ++ space, for a body with non-space ends. -/
theorem stripL_sandwich (w1 w2 m : List Char) (c d : Char)
    (hw1 : ∀ e ∈ w1, isPySpace e = true) (hw2 : ∀ e ∈ w2, isPySpace e = true)
    (hc : isPySpace c = false) (hd : isPySpace d = false) :
    stripL (w1 ++ (c :: (m ++ [d])) ++ w2) = c :: (m ++ [d]) := by
  unfold stripL
  rw [List.append_assoc, lstripL_space w1 _ hw1]
  rw [show (c :: (m ++ [d])) ++ w2 = c :: ((m ++ [d]) ++ w2) from rfl]
  rw [lstripL_nospace c _ hc]
  rw [show c :: ((m ++ [d]) ++ w2) = (c :: (m ++ [d])) ++ w2 from rfl]
  rw [rstripL_space _ w2 hw2]
  rw [show c :: (m ++ [d]) = (c :: m) ++ [d] from rfl]
  exact rstripL_nospace (c :: m) d hd

/-- A successful attempt body has already removed the temp copy. -/
theorem fAttemptTemp_of_some (e : FEnv) (t : Bool) (j : JObj)
    (h : fAttemptResult e = some j) : fAttemptTemp e t = false := by
  cases hw : e.write with
  | failNotCreated => simp [fAttemptResult, hw] at h
  | failCreated => simp [fAttemptResult, hw] at h
  | ok =>
    cases hc : (e.api.uploadOk && e.api.remoteReady && e.api.generateOk) with
    | false => simp [fAttemptResult, hw, hc] at h
    | true => simp [fAttemptTemp, hw, hc]

/-- After any frontend retry loop with at least one attempt, the temp copy
    is gone: a successful body removed it before returning, and the final
    except branch removes it otherwise. -/
theorem fLoop_temp_false (envs : Nat → FEnv) :
    ∀ (r i : Nat) (temp : Bool), (fLoop envs i (r + 1) temp).snd.fst = false := by
  intro r
  induction r with
  | zero =>
    intro i temp
    cases h : fAttemptResult (envs i) with
    | none => simp [fLoop, h]
    | some j => simp [fLoop, h, fAttemptTemp_of_some (envs i) temp j h]
  | succ r' ih =>
    intro i temp
    cases h : fAttemptResult (envs i) with
    | none => simp [fLoop, h]; exact ih (i + 1) (fAttemptTemp (envs i) temp)
    | some j => simp [fLoop, h, fAttemptTemp_of_some (envs i) temp j h]

theorem fLoop_count_le (envs : Nat → FEnv) :
    ∀ (r i : Nat) (temp : Bool), (fLoop envs i r temp).snd.snd ≤ r := by
  intro r
  induction r with
  | zero => intro i temp; simp [fLoop]
  | succ r' ih =>
    intro i temp
    cases h : fAttemptResult (envs i) with
    | some j => simp [fLoop, h]
    | none =>
      by_cases hr : r' = 0
      · simp [fLoop, h, hr]
      · simp only [fLoop, h, if_neg hr]
        have := ih (i + 1) (fAttemptTemp (envs i) temp)
        omega

theorem vLoop_count_le (envs : Nat → VEnv) :
    ∀ (r i : Nat), (vLoop envs i r).snd ≤ r := by
  intro r
  induction r with
  | zero => intro i; simp [vLoop]
  | succ r' ih =>
    intro i
    cases h : vAttemptResult (envs i) with
    | some j => simp [vLoop, h]
    | none =>
      by_cases hr : r' = 0
      · simp [vLoop, h, hr]
      · simp only [vLoop, h, if_neg hr]
        have := ih (i + 1)
        omega

theorem fLoop_none_of_fail (envs : Nat → FEnv) :
    ∀ (r i : Nat) (temp : Bool), (∀ k, k < r → fAttemptResult (envs (i + k)) = none) →
      (fLoop envs i r temp).fst = none := by
  intro r
  induction r with
  | zero => intro i temp _; simp [fLoop]
  | succ r' ih =>
    intro i temp h
    have h0 : fAttemptResult (envs i) = none := by
      have := h 0 (Nat.succ_pos r'); simpa using this
    by_cases hr : r' = 0
    · simp [fLoop, h0, hr]
    · simp only [fLoop, h0, if_neg hr]
      exact ih (i + 1) (fAttemptTemp (envs i) temp)
        (fun k hk => by
          have := h (k + 1) (by omega)
          rwa [show i + (k + 1) = i + 1 + k by omega] at this)

theorem vLoop_none_of_fail (envs : Nat → VEnv) :
    ∀ (r i : Nat), (∀ k, k < r → vAttemptResult (envs (i + k)) = none) →
      (vLoop envs i r).fst = none := by
  intro r
  induction r with
  | zero => intro i _; simp [vLoop]
  | succ r' ih =>
    intro i h
    have h0 : vAttemptResult (envs i) = none := by
      have := h 0 (Nat.succ_pos r'); simpa using this
    by_cases hr : r' = 0
    · simp [vLoop, h0, hr]
    · simp only [vLoop, h0, if_neg hr]
      exact ih (i + 1)
        (fun k hk => by
          have := h (k + 1) (by omega)
          rwa [show i + (k + 1) = i + 1 + k by omega] at this)

/-- A file whose extraction returns none contributes nothing to the
    frontend result set. -/
theorem runFront_skip (d : String) (fe : Nat → FEnv) (hfe : (fProcess fe).fst = none) :
    ∀ pre post, runFrontendRecords d (pre ++ fe :: post) = runFrontendRecords d (pre ++ post) := by
  intro pre
  induction pre with
  | nil => intro post; simp [runFrontendRecords, hfe]
  | cons p ps ih =>
    intro post
    rw [List.cons_append, List.cons_append]
    cases hp : (fProcess p).fst with
    | none => simp only [runFrontendRecords, hp]; exact ih post
    | some j =>
      cases hej : j.isEmpty with
      | true => simp only [runFrontendRecords, hp, hej, if_true]; exact ih post
      | false =>
        cases ha : assembleFrontend j d with
        | none => simp [runFrontendRecords, hp, hej, ha]
        | some r => simp only [runFrontendRecords, hp, hej, ha, Bool.false_eq_true,
            if_false]; rw [ih post]

/-- A file whose extraction returns none contributes nothing to the batch
    result set. -/
theorem runBatch_skip (d : String) (ve : Nat → VEnv) (hve : (vProcess ve).fst = none) :
    ∀ pre post, runBatch d (pre ++ ve :: post) = runBatch d (pre ++ post) := by
  intro pre
  induction pre with
  | nil => intro post; simp [runBatch, hve]
  | cons p ps ih =>
    intro post
    rw [List.cons_append, List.cons_append]
    cases hp : (vProcess p).fst with
    | none => simp only [runBatch, hp]; exact ih post
    | some j =>
      cases hej : j.isEmpty with
      | true => simp only [runBatch, hp, hej, if_true]; exact ih post
      | false =>
        simp only [runBatch, hp, hej, Bool.false_eq_true, if_false]
        rw [ih post]

/-- Claim C1: in both variants the retry controller runs the extraction
    attempt at most 3 times per file; when all 3 attempts fail the
    per-file extraction returns none and that file contributes no Record
    to the result set. -/
theorem claim1_retry_bound
    (fe : Nat → FEnv) (ve : Nat → VEnv) (d : String)
    (pre post : List (Nat → FEnv)) (vpre vpost : List (Nat → VEnv))
    (hf : ∀ i, i < 3 → fAttemptResult (fe i) = none)
    (hv : ∀ i, i < 3 → vAttemptResult (ve i) = none) :
    (∀ g : Nat → FEnv, (fProcess g).snd.snd ≤ 3) ∧
    (∀ g : Nat → VEnv, (vProcess g).snd ≤ 3) ∧
    (fProcess fe).fst = none ∧
    (vProcess ve).fst = none ∧
    runFrontendRecords d (pre ++ fe :: post) = runFrontendRecords d (pre ++ post) ∧
    runBatch d (vpre ++ ve :: vpost) = runBatch d (vpre ++ vpost) := by
  have hfe : (fProcess fe).fst = none :=
    fLoop_none_of_fail fe 3 0 false (fun k hk => by simpa using hf k hk)
  have hve : (vProcess ve).fst = none :=
    vLoop_none_of_fail ve 3 0 (fun k hk => by simpa using hv k hk)
  exact ⟨fun g => fLoop_count_le g 3 0 false,
    fun g => vLoop_count_le g 3 0,
    hfe, hve,
    runFront_skip d fe hfe pre post,
    runBatch_skip d ve hve vpre vpost⟩

/-- Witness for claim C1 at a concrete always-failing oracle. -/
theorem claim1_witness :
    (fProcess (fun _ => failEnvF)).fst = none ∧
    (vProcess (fun _ => failEnvV)).fst = none ∧
    runFrontendRecords "2026-10-12" ([] ++ (fun _ => failEnvF) :: []) =
      runFrontendRecords "2026-10-12" ([] ++ []) ∧
    runBatch "2026-10-12" ([] ++ (fun _ => failEnvV) :: []) =
      runBatch "2026-10-12" ([] ++ []) := by
  have h := claim1_retry_bound (fun _ => failEnvF) (fun _ => failEnvV) "2026-10-12"
    [] [] [] [] (fun i _ => rfl) (fun i _ => rfl)
  exact ⟨h.2.2.1, h.2.2.2.1, h.2.2.2.2.1, h.2.2.2.2.2⟩

/-- Claim C6: on every exit of frontend.process_audio_file (a successful
    parsed return as well as the final-attempt failure returning none) the
    temporary local copy has been removed from disk. -/
theorem claim6_temp_removed (envs : Nat → FEnv) :
    (fProcess envs).snd.fst = false :=
  fLoop_temp_false envs 2 0 false

/-- Counterexample for claim C9: two in-flight copies of same-named files
    use the same temporary path (the bare file name), and the second write
    corrupts the first file's copy before it is consumed. -/
theorem claim9_counterexample :
    tempPath ⟨"rec.mp3", "AAA"⟩ = tempPath ⟨"rec.mp3", "BBB"⟩ ∧
    fsRead (writeTempFile (writeTempFile [] ⟨"rec.mp3", "AAA"⟩) ⟨"rec.mp3", "BBB"⟩)
        (tempPath ⟨"rec.mp3", "AAA"⟩) ≠ some "AAA" := by
  constructor
  · rfl
  · decide

/-- Claim C9 as amended: two files processed in sequence never collide,
    because each file's processing ends with the temp copy removed before
    the next acquisition; but the temporary path is exactly the uploaded
    file's bare name, so in-flight copies of same-named files share one
    path (no per-run distinctness). -/
theorem claim9_amended :
    (∀ envs : Nat → FEnv, (fProcess envs).snd.fst = false) ∧
    (∀ f : UpFile, tempPath f = f.name) ∧
    (∀ f g : UpFile, f.name = g.name → tempPath f = tempPath g) := by
  refine ⟨fun envs => fLoop_temp_false envs 2 0 false, fun f => rfl, ?_⟩
  intro f g h
  exact h

/-- Witness for claim C9 (amended) at concrete inputs. -/
theorem claim9_witness :
    (fProcess (fun _ => envOfResp respGood)).snd.fst = false ∧
    tempPath ⟨"a.mp3", "X"⟩ = tempPath ⟨"a.mp3", "Y"⟩ := by
  have h := claim9_amended
  exact ⟨h.1 (fun _ => envOfResp respGood), h.2.2 ⟨"a.mp3", "X"⟩ ⟨"a.mp3", "Y"⟩ rfl⟩

/-- Claim C5: the database insert outcome never changes the record
    stream of the interactive run: with any two insert oracles the records
    are identical, and a file whose insert fails still has its record
    appended, one notice emitted, and the run continue with the rest. -/
theorem claim5_insert_independent (d : String) :
    (∀ (ins1 ins2 : Nat → Bool) (files : List (Nat → FEnv)) (i : Nat),
       (runFrontendFull d ins1 files i).map Prod.fst
         = (runFrontendFull d ins2 files i).map Prod.fst) ∧
    (∀ (ins : Nat → Bool) (f : Nat → FEnv) (fs : List (Nat → FEnv)) (i : Nat)
       (j : JObj) (r : Record),
       (fProcess f).fst = some j → j.isEmpty = false → assembleFrontend j d = some r →
       runFrontendFull d ins (f :: fs) i
         = (runFrontendFull d ins fs (i + 1)).map
             (fun p => (r :: p.fst, (i, ins i) :: p.snd))) := by
  constructor
  · intro ins1 ins2 files
    induction files with
    | nil => intro i; rfl
    | cons p ps ih =>
      intro i
      cases hp : (fProcess p).fst with
      | none => simp only [runFrontendFull, hp]; exact ih (i + 1)
      | some j =>
        cases hej : j.isEmpty with
        | true => simp only [runFrontendFull, hp, hej, if_true]; exact ih (i + 1)
        | false =>
          cases ha : assembleFrontend j d with
          | none => simp [runFrontendFull, hp, hej, ha]
          | some r =>
            simp only [runFrontendFull, hp, hej, ha, Bool.false_eq_true, if_false]
            have h1 := ih (i + 1)
            cases h2 : runFrontendFull d ins1 ps (i + 1) with
            | none =>
              cases h3 : runFrontendFull d ins2 ps (i + 1) with
              | none => rfl
              | some q => rw [h2, h3] at h1; simp at h1
            | some q =>
              cases h3 : runFrontendFull d ins2 ps (i + 1) with
              | none => rw [h2, h3] at h1; simp at h1
              | some q2 =>
                rw [h3, h2] at h1
                simp only [Option.map_some', Option.some.injEq] at h1 ⊢
                rw [h1]
  · intro ins f fs i j r hp hej ha
    simp [runFrontendFull, hp, hej, ha]

/-- Witness for claim C5 at a concrete file whose insert fails. -/
theorem claim5_witness :
    (runFrontendFull "2026-10-12" (fun _ => false) [fun _ => envOfResp respGood] 0).map Prod.fst
      = (runFrontendFull "2026-10-12" (fun _ => true) [fun _ => envOfResp respGood] 0).map Prod.fst ∧
    runFrontendFull "2026-10-12" (fun _ => false) ((fun _ => envOfResp respGood) :: []) 0
      = (runFrontendFull "2026-10-12" (fun _ => false) [] 1).map
          (fun p => (⟨12, JVal.jstr "Bruno", JVal.jstr "Augmentin 2cc", JVal.jstr "N/A",
            "2026-10-12"⟩ :: p.fst, (0, false) :: p.snd)) := by
  have h := claim5_insert_independent "2026-10-12"
  refine ⟨h.1 (fun _ => false) (fun _ => true) [fun _ => envOfResp respGood] 0, ?_⟩
  exact h.2 (fun _ => false) (fun _ => envOfResp respGood) [] 0 respGood
    ⟨12, JVal.jstr "Bruno", JVal.jstr "Augmentin 2cc", JVal.jstr "N/A", "2026-10-12"⟩
    rfl rfl rfl

/-- d[k] = v makes k present with value v. -/
theorem lookupJ_setKey_self (j : JObj) (k : String) (v : JVal) :
    lookupJ (setKey j k v) k = some v := by
  induction j with
  | nil => simp [setKey, lookupJ, List.find?]
  | cons kv t ih =>
    by_cases h : kv.fst == k
    · simp [setKey, h, lookupJ, List.find?]
    · simp only [setKey, h, Bool.false_eq_true, if_false]
      simp only [lookupJ, List.find?, h]
      exact ih

/-- d[k0] = v leaves every other key unchanged. -/
theorem lookupJ_setKey_ne (j : JObj) (k0 k : String) (v : JVal) (hk : k ≠ k0) :
    lookupJ (setKey j k0 v) k = lookupJ j k := by
  have hk0k : (k0 == k) = false := by
    simp only [beq_eq_false_iff_ne]
    exact fun h => hk h.symm
  induction j with
  | nil => simp [setKey, lookupJ, List.find?, hk0k]
  | cons kv t ih =>
    by_cases h : (kv.fst == k0) = true
    · have hkv : kv.fst = k0 := by simpa using h
      have hkvk : (kv.fst == k) = false := by
        simp only [beq_eq_false_iff_ne, hkv]
        exact fun he => hk he.symm
      simp only [setKey, h, if_true]
      simp only [lookupJ, List.find?, hk0k, hkvk]
    · have h2 : (kv.fst == k0) = false := by simpa using h
      simp only [setKey, h2, Bool.false_eq_true, if_false]
      by_cases h3 : (kv.fst == k) = true
      · simp only [lookupJ, List.find?, h3]
      · have h4 : (kv.fst == k) = false := by simpa using h3
        simp only [lookupJ, List.find?, h4]
        exact ih

/-- Counterexample for claim C2: a parsed result whose patient_id is the
    sentinel "N/A" does not produce a per-file failure: the uncaught int()
    error aborts the whole interactive run, so a later processable file
    also yields nothing. -/
theorem claim2_counterexample :
    runFrontendRecords "2026-10-12"
      [fun _ => envOfResp respNA, fun _ => envOfResp respGood] = none ∧
    runFrontendRecords "2026-10-12" [fun _ => envOfResp respGood] ≠ none := by
  constructor
  · rfl
  · decide

/-- Claim C2 as amended: in the interactive variant the assembled record's
    patient_id is an integer, defaulting to 0 when absent and coerced with
    int() otherwise; a non-numeric non-default value such as "N/A" makes
    assembly fail, and that failure aborts the run (it is not a per-file
    failure). The batch variant performs no coercion at all: its record
    keeps the parsed patient_id value unchanged. -/
theorem claim2_amended (j : JObj) (d : String) :
    (lookupJ j "patient_id" = none →
       (assembleFrontend j d).map Record.patient_id = some 0) ∧
    (∀ n : Int, lookupJ j "patient_id" = some (JVal.jnum n) →
       (assembleFrontend j d).map Record.patient_id = some n) ∧
    (∀ s : String, lookupJ j "patient_id" = some (JVal.jstr s) →
       (assembleFrontend j d).map Record.patient_id = pyStrToInt s) ∧
    pyStrToInt "N/A" = none ∧
    (∀ (f : Nat → FEnv) (fs : List (Nat → FEnv)),
       (fProcess f).fst = some j → j.isEmpty = false → assembleFrontend j d = none →
       runFrontendRecords d (f :: fs) = none) ∧
    (∀ k : String, k ≠ "date" →
       lookupJ (batchAssemble j d) k = lookupJ j k) := by
  refine ⟨?_, ?_, ?_, by decide, ?_, ?_⟩
  · intro h
    simp [assembleFrontend, h, pyInt]
  · intro n h
    simp [assembleFrontend, h, pyInt]
  · intro s h
    simp only [assembleFrontend, h, Option.getD_some, pyInt]
    cases hp : pyStrToInt s with
    | none => simp
    | some n => simp
  · intro f fs hp hej ha
    simp [runFrontendRecords, hp, hej, ha]
  · intro k hk
    exact lookupJ_setKey_ne j "date" k (JVal.jstr d) hk

/-- Witness for claim C2 (amended) at concrete inputs. -/
theorem claim2_witness :
    (assembleFrontend [("patient_name", JVal.jstr "Rex")] "2026-10-12").map Record.patient_id
      = some 0 ∧
    (assembleFrontend respNA "2026-10-12").map Record.patient_id = pyStrToInt "N/A" ∧
    pyStrToInt "N/A" = none ∧
    runFrontendRecords "2026-10-12" ((fun _ => envOfResp respNA) :: []) = none ∧
    lookupJ (batchAssemble respGood "2026-10-12") "patient_id" = lookupJ respGood "patient_id" := by
  refine ⟨(claim2_amended [("patient_name", JVal.jstr "Rex")] "2026-10-12").1 rfl,
    ((claim2_amended respNA "2026-10-12").2.2.1 "N/A" rfl),
    (claim2_amended respNA "2026-10-12").2.2.2.1,
    ((claim2_amended respNA "2026-10-12").2.2.2.2.1 (fun _ => envOfResp respNA) [] rfl rfl rfl),
    ((claim2_amended respGood "2026-10-12").2.2.2.2.2 "patient_id" (by decide))⟩

/-- Counterexample for claim C3: the batch variant's assembled record does
    not hold "N/A" for an absent patient_name; the key is simply absent. -/
theorem claim3_counterexample :
    lookupJ (batchAssemble [("patient_id", JVal.jnum 7)] "2026-10-12") "patient_name"
      ≠ some (JVal.jstr "N/A") := by
  decide

/-- Claim C3 as amended: in the interactive variant, absent
    patient_name/patient_dose/notes_for_doctor fields default to the
    literal "N/A" and an absent patient_id defaults to 0, assembly
    succeeding; in the batch variant absent keys simply stay absent from
    the record (only "date" is added). -/
theorem claim3_amended (j : JObj) (d : String) :
    (lookupJ j "patient_id" = none →
       ∃ r : Record, assembleFrontend j d = some r ∧ r.patient_id = 0) ∧
    (∀ r : Record, assembleFrontend j d = some r →
       (lookupJ j "patient_name" = none → r.patient_name = JVal.jstr "N/A") ∧
       (lookupJ j "patient_dose" = none → r.patient_dose = JVal.jstr "N/A") ∧
       (lookupJ j "notes_for_doctor" = none → r.notes_for_doctor = JVal.jstr "N/A")) ∧
    (∀ k : String, lookupJ j k = none →
       lookupJ (batchAssemble j d) k
         = (if k = "date" then some (JVal.jstr d) else none)) := by
  refine ⟨?_, ?_, ?_⟩
  · intro h
    refine ⟨⟨0, (lookupJ j "patient_name").getD (JVal.jstr "N/A"),
      (lookupJ j "patient_dose").getD (JVal.jstr "N/A"),
      (lookupJ j "notes_for_doctor").getD (JVal.jstr "N/A"), d⟩, ?_, rfl⟩
    simp [assembleFrontend, h, pyInt]
  · intro r hr
    cases hp : pyInt ((lookupJ j "patient_id").getD (JVal.jnum 0)) with
    | none => simp [assembleFrontend, hp] at hr
    | some n =>
      simp only [assembleFrontend, hp, Option.some.injEq] at hr
      refine ⟨fun h1 => ?_, fun h2 => ?_, fun h3 => ?_⟩
      · rw [← hr]; simp [h1]
      · rw [← hr]; simp [h2]
      · rw [← hr]; simp [h3]
  · intro k hk
    by_cases hd : k = "date"
    · rw [if_pos hd, hd]
      exact lookupJ_setKey_self j "date" (JVal.jstr d)
    · rw [if_neg hd]
      show lookupJ (setKey j "date" (JVal.jstr d)) k = none
      rw [lookupJ_setKey_ne j "date" k (JVal.jstr d) hd]
      exact hk

/-- Witness for claim C3 (amended) at a parsed result missing every
    field. -/
theorem claim3_witness :
    (∃ r : Record, assembleFrontend [] "2026-10-12" = some r ∧ r.patient_id = 0) ∧
    ((⟨0, JVal.jstr "N/A", JVal.jstr "N/A", JVal.jstr "N/A", "2026-10-12"⟩ : Record).patient_name
        = JVal.jstr "N/A") ∧
    lookupJ (batchAssemble [] "2026-10-12") "patient_name" = none := by
  have h := claim3_amended [] "2026-10-12"
  refine ⟨h.1 rfl,
    (h.2.1 ⟨0, JVal.jstr "N/A", JVal.jstr "N/A", JVal.jstr "N/A", "2026-10-12"⟩ rfl).1 rfl, ?_⟩
  have h3 := h.2.2 "patient_name" rfl
  rw [if_neg (by decide)] at h3
  exact h3

/-- With a successful temp-file write, a frontend attempt body behaves
    exactly like a batch attempt body. -/
theorem fAttemptResult_ok (v : VEnv) :
    fAttemptResult ⟨WriteOutcome.ok, v⟩ = vAttemptResult v := rfl

/-- With successful temp-file writes, the two retry loops return the same
    extraction result. -/
theorem fLoop_eq_vLoop (fe : Nat → FEnv) (ve : Nat → VEnv)
    (h : ∀ i, fe i = ⟨WriteOutcome.ok, ve i⟩) :
    ∀ (r i : Nat) (temp : Bool), (fLoop fe i r temp).fst = (vLoop ve i r).fst := by
  intro r
  induction r with
  | zero => intro i temp; rfl
  | succ r' ih =>
    intro i temp
    have hi : fAttemptResult (fe i) = vAttemptResult (ve i) := by
      rw [h i]; rfl
    cases hv : vAttemptResult (ve i) with
    | some j => rw [hv] at hi; simp [fLoop, vLoop, hi, hv]
    | none =>
      rw [hv] at hi
      by_cases hr : r' = 0
      · simp [fLoop, vLoop, hi, hv, hr]
      · simp only [fLoop, vLoop, hi, hv, if_neg hr]
        exact ih (i + 1) (fAttemptTemp (fe i) temp)

/-- Counterexample for claim C8: for the same parsed response the two
    variants assemble different Records: the interactive one coerces
    patient_id to the integer 12 and stamps record_date, the batch one
    keeps the string "12" and adds a date key. -/
theorem claim8_counterexample :
    (assembleFrontend respGood "2026-10-12").map frontRecordToObj
      ≠ some (batchAssemble respGood "2026-10-12") := by
  decide

/-- Claim C8 as amended: given the same per-attempt outcomes (with the
    interactive variant's temp-file writes succeeding), the two variants'
    per-file extraction returns identical results, so the same files
    contribute records; but the assembled records differ (the interactive
    variant coerces patient_id and defaults absent fields, while the batch
    variant keeps the parsed mapping unchanged apart from adding the date)
    and the export header rows differ in the notes column label. -/
theorem claim8_amended (fe : Nat → FEnv) (ve : Nat → VEnv)
    (h : ∀ i, fe i = ⟨WriteOutcome.ok, ve i⟩) :
    (fProcess fe).fst = (vProcess ve).fst ∧
    (∀ (j : JObj) (d : String) (k : String), k ≠ "date" →
       lookupJ (batchAssemble j d) k = lookupJ j k) ∧
    batchHeaders ≠ frontHeaders := by
  refine ⟨fLoop_eq_vLoop fe ve h 3 0 false, ?_, by decide⟩
  intro j d k hk
  exact lookupJ_setKey_ne j "date" k (JVal.jstr d) hk

/-- Witness for claim C8 (amended) at concrete oracles. -/
theorem claim8_witness :
    (fProcess (fun _ => envOfResp respGood)).fst
      = (vProcess (fun _ => venvOfResp respGood)).fst ∧
    lookupJ (batchAssemble respGood "2026-10-12") "patient_id"
      = lookupJ respGood "patient_id" := by
  have h := claim8_amended (fun _ => envOfResp respGood)
    (fun _ => venvOfResp respGood) (fun i => rfl)
  exact ⟨h.1, h.2.1 respGood "2026-10-12" "patient_id" (by decide)⟩

/-- The renamed frontend record object, key by key. -/
theorem renamedFrontObj (r : Record) :
    renameObj renameF (frontRecordToObj r)
      = [("Patient ID", JVal.jnum r.patient_id), ("Patient Name", r.patient_name),
         ("Patient Dose", r.patient_dose), ("Notes for Doctor", r.notes_for_doctor),
         ("Date", JVal.jstr r.record_date)] := rfl

/-- Selecting the five display columns from a renamed frontend record. -/
theorem selectFrontRow (r : Record) :
    selectCols frontHeaders (renameObj renameF (frontRecordToObj r))
      = [some (JVal.jnum r.patient_id), some r.patient_name, some r.patient_dose,
         some r.notes_for_doctor, some (JVal.jstr r.record_date)] := rfl

/-- The batch rename is injective on the batch record keys. -/
theorem renameB_inj :
    ∀ a ∈ origKeysB, ∀ b ∈ origKeysB, renameB a = renameB b → a = b := by
  decide

/-- Renaming then looking up a renamed key equals looking up the original
    key, for row objects drawn from the batch record keys. -/
theorem lookupJ_renameB (k0 : String) (hk0 : k0 ∈ origKeysB) :
    ∀ j : JObj, (∀ kv ∈ j, kv.fst ∈ origKeysB) →
      lookupJ (renameObj renameB j) (renameB k0) = lookupJ j k0 := by
  intro j
  induction j with
  | nil => intro _; rfl
  | cons kv t ih =>
    intro hkeys
    have hmem : kv.fst ∈ origKeysB := hkeys kv (List.mem_cons_self kv t)
    by_cases he : kv.fst = k0
    · have : (renameB kv.fst == renameB k0) = true := by simp [he]
      simp only [renameObj, List.map_cons, lookupJ, List.find?, this]
      have h2 : (kv.fst == k0) = true := by simp [he]
      simp only [lookupJ, List.find?, h2]
      rfl
    · have hne : renameB kv.fst ≠ renameB k0 :=
        fun hr => he (renameB_inj kv.fst hmem k0 hk0 hr)
      have h1 : (renameB kv.fst == renameB k0) = false := by
        simp only [beq_eq_false_iff_ne]; exact hne
      have h2 : (kv.fst == k0) = false := by
        simp only [beq_eq_false_iff_ne]; exact he
      simp only [renameObj, List.map_cons, lookupJ, List.find?, h1, h2]
      have := ih (fun kw hw => hkeys kw (List.mem_cons_of_mem kv hw))
      simpa only [lookupJ, renameObj] using this

/-- Counterexample for claim C7: the batch export's header row is not the
    claimed label list: its fourth label is "Notes for doctor". -/
theorem claim7_counterexample :
    (version1FinalDf [batchAssemble respGood "2026-10-12"]).map Prod.fst
      ≠ some ["Patient ID", "Patient Name", "Patient Dose", "Notes for Doctor", "Date"] := by
  decide

/-- Claim C7 as amended: both exports have one row per assembled record in
    processing order; the interactive export's columns are exactly
    Patient ID, Patient Name, Patient Dose, Notes for Doctor, Date
    regardless of the key order of the raw response, while the batch
    export uses the same order but the label "Notes for doctor". -/
theorem claim7_amended :
    (∀ records : List Record, records.isEmpty = false →
       frontendFinalDf records
         = some (frontHeaders,
             records.map (fun r =>
               [some (JVal.jnum r.patient_id), some r.patient_name, some r.patient_dose,
                some r.notes_for_doctor, some (JVal.jstr r.record_date)]))) ∧
    (∀ records : List JObj, records.isEmpty = false →
       (∀ j ∈ records, ∀ kv ∈ j, kv.fst ∈ origKeysB) →
       batchHeaders.all (fun c =>
         (records.map (fun j => renameObj renameB j)).any
           (fun j => (lookupJ j c).isSome)) = true →
       version1FinalDf records
         = some (batchHeaders, records.map (fun j => origKeysB.map (fun k => lookupJ j k)))) ∧
    frontHeaders = ["Patient ID", "Patient Name", "Patient Dose", "Notes for Doctor", "Date"] ∧
    batchHeaders = ["Patient ID", "Patient Name", "Patient Dose", "Notes for doctor", "Date"] ∧
    batchHeaders ≠ frontHeaders := by
  refine ⟨?_, ?_, rfl, rfl, by decide⟩
  · intro records hne
    cases records with
    | nil => simp at hne
    | cons r rs =>
      have hguard : frontHeaders.all (fun c =>
          ((r :: rs).map (fun x => renameObj renameF (frontRecordToObj x))).any
            (fun j => (lookupJ j c).isSome)) = true := by
        simp only [List.map_cons, List.all_eq_true, List.any_cons, Bool.or_eq_true]
        intro c hc
        left
        fin_cases hc <;> rfl
      simp only [frontendFinalDf, List.isEmpty_cons, Bool.false_eq_true, if_false,
        selectDf, hguard, if_true]
      refine congrArg some (congrArg _ ?_)
      rw [List.map_map]
      refine List.map_congr_left ?_
      intro x _
      exact selectFrontRow x
  · intro records hne hkeys hguard
    cases records with
    | nil => simp at hne
    | cons r rs =>
      simp only [version1FinalDf, List.isEmpty_cons, Bool.false_eq_true, if_false,
        selectDf, hguard, if_true]
      refine congrArg some (congrArg _ ?_)
      rw [List.map_map]
      refine List.map_congr_left ?_
      intro x hx
      have hxkeys : ∀ kv ∈ x, kv.fst ∈ origKeysB := hkeys x hx
      show selectCols batchHeaders (renameObj renameB x) = origKeysB.map (fun k => lookupJ x k)
      have hbh : batchHeaders = origKeysB.map renameB := by decide
      rw [hbh]
      show (origKeysB.map renameB).map (fun c => lookupJ (renameObj renameB x) c) = _
      rw [List.map_map]
      refine List.map_congr_left ?_
      intro k hk
      exact lookupJ_renameB k hk x hxkeys

/-- Witness for claim C7 (amended) at one-record runs of both variants. -/
theorem claim7_witness :
    frontendFinalDf [⟨12, JVal.jstr "Bruno", JVal.jstr "Augmentin 2cc", JVal.jstr "N/A",
        "2026-10-12"⟩]
      = some (frontHeaders,
          [[some (JVal.jnum 12), some (JVal.jstr "Bruno"), some (JVal.jstr "Augmentin 2cc"),
            some (JVal.jstr "N/A"), some (JVal.jstr "2026-10-12")]]) ∧
    version1FinalDf [batchAssemble respGood "2026-10-12"]
      = some (batchHeaders,
          [origKeysB.map (fun k => lookupJ (batchAssemble respGood "2026-10-12") k)]) := by
  have h := claim7_amended
  constructor
  · exact h.1 [⟨12, JVal.jstr "Bruno", JVal.jstr "Augmentin 2cc", JVal.jstr "N/A",
      "2026-10-12"⟩] rfl
  · exact h.2.1 [batchAssemble respGood "2026-10-12"] rfl (by decide) (by decide)

/-- The first cleanup pattern is the character list of the literal removed
    by the source. -/
theorem patJson_eq : patJson = "```json".toList := by decide

/-- The second cleanup pattern is the character list of the literal removed
    by the source. -/
theorem patFence_eq : patFence = "```".toList := by decide

/-- stripL leaves a text with non-space first and last characters alone. -/
theorem stripL_nostrip (m : List Char) (c d : Char)
    (hc : isPySpace c = false) (hd : isPySpace d = false) :
    stripL (c :: (m ++ [d])) = c :: (m ++ [d]) := by
  have h := stripL_sandwich [] [] m c d (by simp) (by simp) hc hd
  simpa using h

/-- Counterexample for claim C4: a fenced response whose object text itself
    contains a backtick fence is not returned as the unwrapped object
    text: the embedded fence is deleted too. -/
theorem claim4_counterexample :
    cleanResponse ("```json\n\x7b\"a\":\"```\"\x7d\n```".toList)
      ≠ "\x7b\"a\":\"```\"\x7d".toList := by
  decide

/-- Claim C4 as amended: for a response of the shape
    whitespace ++ three-backticks-json ++ newline ++ object text ++
    newline ++ three-backticks ++ whitespace, where the object text
    contains no backtick, the cleanup returns exactly the unwrapped object
    text. -/
theorem claim4_amended (s w1 w2 : List Char)
    (hs : btick ∉ s)
    (hw1 : ∀ c ∈ w1, isPySpace c = true) (hw2 : ∀ c ∈ w2, isPySpace c = true) :
    cleanResponse (w1 ++ (patJson ++ '\n' :: '\x7b' :: (s ++ ['\x7d', '\n'] ++ patFence)) ++ w2)
      = '\x7b' :: (s ++ ['\x7d']) := by
  have hnb : ∀ c ∈ ('\n' :: '\x7b' :: s), btick ≠ c := by
    intro c hc
    rcases List.mem_cons.mp hc with h1 | hc2
    · subst h1; decide
    rcases List.mem_cons.mp hc2 with h2 | hc3
    · subst h2; decide
    · exact fun he => hs (he ▸ hc3)
  have hnb2 : ∀ c ∈ (['\x7d', '\n'] : List Char), btick ≠ c := by decide
  have hpj : patJson = btick :: [btick, btick, 'j', 's', 'o', 'n'] := rfl
  have hpf : patFence = btick :: [btick, btick] := rfl
  have hX : patJson ++ '\n' :: '\x7b' :: (s ++ ['\x7d', '\n'] ++ patFence)
      = btick :: (([btick, btick, 'j', 's', 'o', 'n', '\n', '\x7b'] ++
          (s ++ ['\x7d', '\n', btick, btick])) ++ [btick]) := by
    simp [patJson, patFence, List.append_assoc]
  have hstrip1 :
      stripL (w1 ++ (patJson ++ '\n' :: '\x7b' :: (s ++ ['\x7d', '\n'] ++ patFence)) ++ w2)
        = patJson ++ '\n' :: '\x7b' :: (s ++ ['\x7d', '\n'] ++ patFence) := by
    rw [hX]
    exact stripL_sandwich w1 w2 _ btick btick hw1 hw2 (by decide) (by decide)
  have hrest : ('\n' :: '\x7b' :: (s ++ ['\x7d', '\n'] ++ patFence) : List Char)
      = ('\n' :: '\x7b' :: s) ++ (['\x7d', '\n'] ++ patFence) := by
    simp [List.append_assoc]
  have hrepl1 :
      replaceL patJson [] (patJson ++ '\n' :: '\x7b' :: (s ++ ['\x7d', '\n'] ++ patFence))
        = '\n' :: '\x7b' :: (s ++ ['\x7d', '\n'] ++ patFence) := by
    rw [replaceL_match patJson [] _ (by decide), List.nil_append, hrest, hpj]
    rw [replaceL_skip btick [btick, btick, 'j', 's', 'o', 'n'] [] _ _ hnb]
    rw [replaceL_skip btick [btick, btick, 'j', 's', 'o', 'n'] [] _ _ hnb2]
    rw [show replaceL (btick :: [btick, btick, 'j', 's', 'o', 'n']) [] patFence = patFence
      from by decide]
  have hrepl2 :
      replaceL patFence [] ('\n' :: '\x7b' :: (s ++ ['\x7d', '\n'] ++ patFence))
        = '\n' :: '\x7b' :: (s ++ ['\x7d', '\n']) := by
    rw [hrest, hpf]
    rw [replaceL_skip btick [btick, btick] [] _ _ hnb]
    rw [replaceL_skip btick [btick, btick] [] _ _ hnb2]
    rw [show replaceL (btick :: [btick, btick]) [] (btick :: [btick, btick]) = ([] : List Char)
      from by decide]
    simp
  have hY : ('\n' :: '\x7b' :: (s ++ ['\x7d', '\n']) : List Char)
      = ['\n'] ++ ('\x7b' :: (s ++ ['\x7d'])) ++ ['\n'] := by
    simp [List.append_assoc]
  have hstrip2 : stripL ('\n' :: '\x7b' :: (s ++ ['\x7d', '\n'])) = '\x7b' :: (s ++ ['\x7d']) := by
    rw [hY]
    exact stripL_sandwich ['\n'] ['\n'] s '\x7b' '\x7d' (by decide) (by decide)
      (by decide) (by decide)
  show stripL (replaceL patFence [] (replaceL patJson [] (stripL _))) = _
  rw [hstrip1, hrepl1, hrepl2, hstrip2]

/-- Witness for claim C4 (amended) at a concrete fenced response. -/
theorem claim4_witness :
    cleanResponse ([] ++ (patJson ++ '\n' :: '\x7b' :: ("\"a\":1".toList ++ ['\x7d', '\n']
        ++ patFence)) ++ [])
      = '\x7b' :: ("\"a\":1".toList ++ ['\x7d']) :=
  claim4_amended ("\"a\":1".toList) [] [] (by decide) (by simp) (by simp)

/-- The first-pass pattern does not match at a bare three-backtick fence
    whose next character is neither a backtick nor a j. -/
theorem replaceL_json_skips_fence (rep : List Char) (u0 : Char) (u : List Char)
    (h0 : u0 ≠ btick) (hj : u0 ≠ 'j') :
    replaceL (btick :: [btick, btick, 'j', 's', 'o', 'n']) rep
        (btick :: btick :: btick :: u0 :: u)
      = btick :: btick :: btick ::
          replaceL (btick :: [btick, btick, 'j', 's', 'o', 'n']) rep (u0 :: u) := by
  have hju : ('j' == u0) = false := by
    simp only [beq_eq_false_iff_ne]
    exact fun h => hj h.symm
  have hbu : (btick == u0) = false := by
    simp only [beq_eq_false_iff_ne]
    exact fun h => h0 h.symm
  have e1 : List.isPrefixOf (btick :: [btick, btick, 'j', 's', 'o', 'n'])
      (btick :: btick :: btick :: u0 :: u) = false := by
    show (btick == btick && (btick == btick && (btick == btick && ('j' == u0 &&
      List.isPrefixOf ['s', 'o', 'n'] u)))) = false
    rw [hju]
    simp
  have e2 : List.isPrefixOf (btick :: [btick, btick, 'j', 's', 'o', 'n'])
      (btick :: btick :: u0 :: u) = false := by
    show (btick == btick && (btick == btick && (btick == u0 &&
      List.isPrefixOf ['j', 's', 'o', 'n'] u))) = false
    rw [hbu]
    simp
  have e3 : List.isPrefixOf (btick :: [btick, btick, 'j', 's', 'o', 'n'])
      (btick :: u0 :: u) = false := by
    show (btick == btick && (btick == u0 &&
      List.isPrefixOf [btick, 'j', 's', 'o', 'n'] u)) = false
    rw [hbu]
    simp
  rw [replaceL_cons, if_neg (by simp [e1])]
  rw [replaceL_cons, if_neg (by simp [e2])]
  rw [replaceL_cons, if_neg (by simp [e3])]

/-- Claim C10: the cleanup removes the fence markers everywhere, not only
    as a leading and trailing wrapper: a fence embedded inside the object
    text is deleted too, so the cleaned text is not the original content
    with just the outer fences removed. -/
theorem claim10_fences_removed (s t : List Char)
    (hs : btick ∉ s) (ht : btick ∉ t) (htj : ∀ c ∈ t.take 1, c ≠ 'j') :
    cleanResponse (patJson ++ '\n' :: '\x7b' ::
        (s ++ patFence ++ t ++ ['\x7d', '\n'] ++ patFence))
      = '\x7b' :: (s ++ t ++ ['\x7d']) ∧
    '\x7b' :: (s ++ t ++ ['\x7d']) ≠ '\x7b' :: (s ++ patFence ++ t ++ ['\x7d']) := by
  have hnb : ∀ c ∈ ('\n' :: '\x7b' :: s), btick ≠ c := by
    intro c hc
    rcases List.mem_cons.mp hc with h1 | hc2
    · subst h1; decide
    rcases List.mem_cons.mp hc2 with h2 | hc3
    · subst h2; decide
    · exact fun he => hs (he ▸ hc3)
  have hnt : ∀ c ∈ t, btick ≠ c := fun c hc he => ht (he ▸ hc)
  have hnb2 : ∀ c ∈ (['\x7d', '\n'] : List Char), btick ≠ c := by decide
  have hpj : patJson = btick :: [btick, btick, 'j', 's', 'o', 'n'] := rfl
  have hpf : patFence = btick :: [btick, btick] := rfl
  -- the character after the embedded fence
  have hu : ∃ u0 u', t ++ (['\x7d', '\n'] ++ patFence) = u0 :: u' ∧
      u0 ≠ btick ∧ u0 ≠ 'j' := by
    cases t with
    | nil => exact ⟨'\x7d', '\n' :: patFence, rfl, by decide, by decide⟩
    | cons c t' =>
      refine ⟨c, t' ++ (['\x7d', '\n'] ++ patFence), rfl, ?_, ?_⟩
      · exact fun he => ht (by rw [he]; exact List.mem_cons_self btick t')
      · exact htj c (by simp)
  obtain ⟨u0, u', huu, hu0b, hu0j⟩ := hu
  have hR : ('\n' :: '\x7b' :: (s ++ patFence ++ t ++ ['\x7d', '\n'] ++ patFence) : List Char)
      = ('\n' :: '\x7b' :: s) ++
          (btick :: btick :: btick :: (t ++ (['\x7d', '\n'] ++ patFence))) := by
    simp [patFence, List.append_assoc]
  have hXform : patJson ++ '\n' :: '\x7b' ::
        (s ++ patFence ++ t ++ ['\x7d', '\n'] ++ patFence)
      = btick :: (([btick, btick, 'j', 's', 'o', 'n', '\n', '\x7b'] ++
          (s ++ ([btick, btick, btick] ++ (t ++ ['\x7d', '\n', btick, btick])))) ++ [btick]) := by
    simp [patJson, patFence, List.append_assoc]
  have hstrip1 :
      stripL (patJson ++ '\n' :: '\x7b' :: (s ++ patFence ++ t ++ ['\x7d', '\n'] ++ patFence))
        = patJson ++ '\n' :: '\x7b' :: (s ++ patFence ++ t ++ ['\x7d', '\n'] ++ patFence) := by
    rw [hXform]
    exact stripL_nostrip _ btick btick (by decide) (by decide)
  have hfence_tail : replaceL (btick :: [btick, btick, 'j', 's', 'o', 'n']) []
        (t ++ (['\x7d', '\n'] ++ patFence))
      = t ++ (['\x7d', '\n'] ++ patFence) := by
    rw [replaceL_skip btick [btick, btick, 'j', 's', 'o', 'n'] [] _ _ hnt]
    rw [replaceL_skip btick [btick, btick, 'j', 's', 'o', 'n'] [] _ _ hnb2]
    rw [show replaceL (btick :: [btick, btick, 'j', 's', 'o', 'n']) [] patFence = patFence
      from by decide]
  have hrepl1 :
      replaceL patJson []
          (patJson ++ '\n' :: '\x7b' :: (s ++ patFence ++ t ++ ['\x7d', '\n'] ++ patFence))
        = '\n' :: '\x7b' :: (s ++ patFence ++ t ++ ['\x7d', '\n'] ++ patFence) := by
    rw [replaceL_match patJson [] _ (by decide), List.nil_append, hR, hpj]
    rw [replaceL_skip btick [btick, btick, 'j', 's', 'o', 'n'] [] _ _ hnb]
    rw [huu]
    rw [replaceL_json_skips_fence [] u0 u' hu0b hu0j]
    rw [← huu]
    rw [hfence_tail]
  have hrepl2 :
      replaceL patFence []
          ('\n' :: '\x7b' :: (s ++ patFence ++ t ++ ['\x7d', '\n'] ++ patFence))
        = '\n' :: '\x7b' :: (s ++ (t ++ ['\x7d', '\n'])) := by
    rw [hR, hpf]
    rw [replaceL_skip btick [btick, btick] [] _ _ hnb]
    rw [show (btick :: btick :: btick :: (t ++ (['\x7d', '\n'] ++ [btick, btick, btick])) : List Char)
      = (btick :: [btick, btick]) ++ (t ++ (['\x7d', '\n'] ++ [btick, btick, btick])) from rfl]
    rw [replaceL_match (btick :: [btick, btick]) [] _ (by decide), List.nil_append]
    rw [replaceL_skip btick [btick, btick] [] _ _ hnt]
    rw [replaceL_skip btick [btick, btick] [] _ _ hnb2]
    rw [show replaceL (btick :: [btick, btick]) [] (btick :: [btick, btick]) = ([] : List Char)
      from by decide]
    simp
  have hY : ('\n' :: '\x7b' :: (s ++ (t ++ ['\x7d', '\n'])) : List Char)
      = ['\n'] ++ ('\x7b' :: ((s ++ t) ++ ['\x7d'])) ++ ['\n'] := by
    simp [List.append_assoc]
  have hstrip2 : stripL ('\n' :: '\x7b' :: (s ++ (t ++ ['\x7d', '\n'])))
      = '\x7b' :: ((s ++ t) ++ ['\x7d']) := by
    rw [hY]
    exact stripL_sandwich ['\n'] ['\n'] (s ++ t) '\x7b' '\x7d' (by decide) (by decide)
      (by decide) (by decide)
  constructor
  · show stripL (replaceL patFence [] (replaceL patJson [] (stripL _))) = _
    rw [hstrip1, hrepl1, hrepl2, hstrip2]
  · intro h
    have hl : (s ++ t ++ ['\x7d']).length = (s ++ patFence ++ t ++ ['\x7d']).length := by
      have h2 := congrArg List.length h
      simpa using h2
    simp only [patFence, List.length_append, List.length_cons, List.length_nil] at hl
    omega

/-- Witness for claim C10 at a concrete response with an embedded fence. -/
theorem claim10_witness :
    cleanResponse (patJson ++ '\n' :: '\x7b' ::
        ("\"a\":\"".toList ++ patFence ++ "\"".toList ++ ['\x7d', '\n'] ++ patFence))
      = '\x7b' :: ("\"a\":\"".toList ++ "\"".toList ++ ['\x7d']) ∧
    '\x7b' :: ("\"a\":\"".toList ++ "\"".toList ++ ['\x7d'])
      ≠ '\x7b' :: ("\"a\":\"".toList ++ patFence ++ "\"".toList ++ ['\x7d']) :=
  claim10_fences_removed ("\"a\":\"".toList) ("\"".toList) (by decide) (by decide) (by decide)

end PawsShelter
